import Mathlib

/-!
# Verification of the mini-shell command interpreter (`src/cmd.c`)

This file gives a shallow embedding of the execution engine in `src/cmd.c`:
the recursive tree evaluator `parse_command`, the leaf executor
`parse_simple`, the redirection functions `redirect_to_file` and
`cmd_redirection`, the builtins `shell_cd` / `shell_exit`, and the parent-side
orchestration of `run_in_parallel` and `run_on_pipe`.

Modelling conventions:
* OS calls (`open`, `chdir`, `setenv`, `fork`, `waitpid`, `execvp`, `pipe`)
  are represented by an oracle structure `OS` giving each call's outcome.
  `open` results are C `int` descriptors (negative = failure), faithfully
  compared with the source's `fd <= 0` / `fd < 0` checks.
* Descriptor-level effects are recorded as an event trace (`Ev`): file opens,
  `dup2`, `close`, waits, and the leaf-level actions (cd, exit, assignment,
  external exec).  A subtree "is evaluated" exactly when its events appear in
  the trace.
* The environment-variable table is threaded through evaluation as an
  association list; child processes of PARALLEL/PIPE cannot mutate the
  parent's table (process isolation), so those operators leave it unchanged.
* The integer return values of the C functions are `Int`.  `run_in_parallel`
  and `run_on_pipe` are declared `bool` in the source, so every value they
  return is converted C-style to `_Bool` (nonzero becomes `true`); the model
  keeps that `Bool` type and `parse_command` converts it back to 0/1.
-/

namespace Minishell

/-- The `IO_REGULAR` flag value from the assignment header. -/
def IO_REGULAR : Nat := 0

/-- The `IO_OUT_APPEND` flag value from the assignment header. -/
def IO_OUT_APPEND : Nat := 1

/-- The `IO_ERR_APPEND` flag value from the assignment header. -/
def IO_ERR_APPEND : Nat := 2

/-- Modelled from the spec: the distinguished TERMINATE sentinel
(`SHELL_EXIT` in the header that is not under `src/`).  It must be negative
(the SEQUENTIAL case propagates it through the `ret < 0` check) and distinct
from the generic `-1` failure status (the REPL collaborator compares against
it to end the session); we use `-100`. -/
def SHELL_EXIT : Int := -100

/-- One fragment of a `word_t` chain: a literal string, or (when `expand`
is set) a reference to the environment variable named by `string`. -/
structure WordPart where
  string : String
  expand : Bool
deriving Repr, DecidableEq

/-- The environment-variable table, threaded through evaluation. -/
def EnvT : Type := List (String × String)

instance : DecidableEq EnvT := by
  unfold EnvT
  infer_instance

/-- Environment lookup (`getenv`). -/
def lookupEnv : List (String × String) → String → Option String
  | [], _ => none
  | (k, v) :: rest, key => if k = key then some v else lookupEnv rest key

/-- Environment update (`setenv` with overwrite). -/
def setEnvList (e : List (String × String)) (k v : String) :
    List (String × String) :=
  (k, v) :: e.filter (fun p => p.1 ≠ k)

/-- Modelled from the spec (WordResolver, the helper `get_word` lives in the
`utils` collaborator outside `src/`): resolve one fragment; an environment
reference resolves to the variable's value, or the empty string when the
variable is unset. -/
def resolvePart (env : List (String × String)) (p : WordPart) : String :=
  if p.expand then (lookupEnv env p.string).getD "" else p.string

/-- Modelled from the spec: resolve a non-null word chain by concatenating
its resolved fragments. -/
def getWordW (env : List (String × String)) (w : List WordPart) : String :=
  String.join (w.map (resolvePart env))

/-- Modelled from the spec: `get_word` on a nullable `word_t*`; `NULL` yields
the absence value. -/
def get_word (env : List (String × String)) (w : Option (List WordPart)) :
    Option String :=
  w.map (getWordW env)

/-- The raw `string` field of the first fragment of a word chain
(`s->verb->string` in the source). -/
def firstRaw : List WordPart → String
  | [] => ""
  | p :: _ => p.string

/-- The three open-flag combinations the source ever passes to `open`:
`O_RDONLY`, `O_WRONLY|O_CREAT|O_TRUNC`, `O_WRONLY|O_CREAT|O_APPEND`. -/
inductive OpenFlags where
  | rdonly
  | wcTrunc
  | wcAppend
deriving Repr, DecidableEq

/-- The struct `simple_command_t`: verb chain, first parameter chain, the three
nullable redirect targets, and the io flags. -/
structure SimpleCmd where
  verb : List WordPart
  params : Option (List WordPart)
  inFile : Option (List WordPart)
  out : Option (List WordPart)
  err : Option (List WordPart)
  io_flags : Nat
deriving Repr, DecidableEq

/-- The operators of `enum op_type` in the command tree. -/
inductive Op where
  | opNone
  | opSequential
  | opParallel
  | opCondNzero
  | opCondZero
  | opPipe
  | opDummy
deriving Repr, DecidableEq

/-- The pointer type `command_t*`: a nullable pointer to a tree node.  `nullC` is the `NULL`
pointer; a `node` carries the operator, the nullable `scmd` payload and the
two child pointers. -/
inductive CommandT where
  | nullC : CommandT
  | node (op : Op) (scmd : Option SimpleCmd) (cmd1 : CommandT) (cmd2 : CommandT) :
      CommandT
deriving Repr, DecidableEq

/-- Observable events of one evaluation, in program order: descriptor events
(`open`, `dup2`, `close`), waits, and the leaf-level actions. -/
inductive Ev where
  | openE (path : String) (flags : OpenFlags) (fd : Int)
  | dup2E (fd : Int) (target : Nat)
  | closeE (fd : Int)
  | cdA (ok : Bool)
  | exitA
  | assignA (name : String) (value : String)
  | extA (verb : String)
  | execA (verb : String)
  | waitA (pid : Int)
deriving Repr, DecidableEq

/-- Oracle for every OS call the interpreter makes.  Results are indexed by
the call's arguments (and, for the per-node fork/wait calls of the PARALLEL
and PIPE paths, by the two subtrees of that node). -/
structure OS where
  openRes : String → OpenFlags → Int
  chdirRes : String → Int
  setenvRes : String → String → Int
  forkSimple : SimpleCmd → Int
  waitSimple : SimpleCmd → Int
  exitedSimple : SimpleCmd → Bool
  statusSimple : SimpleCmd → Nat
  execRes : SimpleCmd → Int
  parFork1 : CommandT → CommandT → Int
  parFork2 : CommandT → CommandT → Int
  parWait1 : CommandT → CommandT → Int
  parWait2 : CommandT → CommandT → Int
  parExited2 : CommandT → CommandT → Bool
  parStatus2 : CommandT → CommandT → Nat
  pipeRes : CommandT → CommandT → Int
  pipeFdR : CommandT → CommandT → Int
  pipeFdW : CommandT → CommandT → Int
  pipeFork1 : CommandT → CommandT → Int
  pipeFork2 : CommandT → CommandT → Int
  pipeWait1 : CommandT → CommandT → Int
  pipeWait2 : CommandT → CommandT → Int
  pipeExited2 : CommandT → CommandT → Bool
  pipeStatus2 : CommandT → CommandT → Nat

/-- Function `redirect_to_file` (src/cmd.c:37-108): redirect one standard channel to
the file named by the command's target of kind `redirection_type`.  Returns
the C return value together with the descriptor-event trace.  Mirrors the
source exactly: the `in` kind always opens read-only; the `out` kind with
`cd_cmd` overwrites the flags with truncate mode and never duplicates onto
stdout; a missing target leaves `fd = 0`, which the `fd <= 0` check turns
into a `-1` return; with `cd_cmd` set, a second pass opens the `err` target
with the (possibly overwritten) flags and duplicates it onto stderr. -/
def redirect_to_file (os : OS) (env : List (String × String)) (s : SimpleCmd)
    (redirection_flags : OpenFlags) (redirection_type : String)
    (cd_cmd : Bool) : Int × List Ev :=
  if redirection_type = "in" ∨ redirection_type = "out" ∨
      redirection_type = "err" then
    let flags : OpenFlags :=
      if redirection_type = "out" ∧ cd_cmd then OpenFlags.wcTrunc
      else redirection_flags
    let nameOpt : Option String :=
      if redirection_type = "in" then get_word env s.inFile
      else if redirection_type = "out" then get_word env s.out
      else get_word env s.err
    let fd : Int :=
      match nameOpt with
      | none => 0
      | some n =>
        if redirection_type = "in" then os.openRes n OpenFlags.rdonly
        else os.openRes n flags
    let evs1 : List Ev :=
      match nameOpt with
      | none => []
      | some n =>
        if redirection_type = "in" then
          [Ev.openE n OpenFlags.rdonly (os.openRes n OpenFlags.rdonly)]
        else [Ev.openE n flags (os.openRes n flags)]
    if fd ≤ 0 then (-1, evs1)
    else
      let evs2 : List Ev := evs1 ++
        (if redirection_type = "in" then [Ev.dup2E fd 0]
         else if redirection_type = "out" ∧ ¬ cd_cmd then [Ev.dup2E fd 1]
         else if redirection_type = "err" then [Ev.dup2E fd 2]
         else []) ++ [Ev.closeE fd]
      if cd_cmd then
        match get_word env s.err with
        | none => (-1, evs2)
        | some n2 =>
          let fd2 := os.openRes n2 flags
          let evs3 := evs2 ++ [Ev.openE n2 flags fd2]
          if fd2 ≤ 0 then (-1, evs3)
          else (0, evs3 ++ [Ev.dup2E fd2 2, Ev.closeE fd2])
      else (0, evs2)
  else (-1, [])

/-- The io-flag dispatch at the top of `cmd_redirection`
(src/cmd.c:127-136): the open flags for the output/error targets, or `none`
when the mode is invalid. -/
def ioFlagsValid (s : SimpleCmd) : Option OpenFlags :=
  if s.io_flags = IO_REGULAR then some OpenFlags.wcTrunc
  else if s.io_flags = IO_OUT_APPEND then some OpenFlags.wcAppend
  else if s.io_flags = IO_ERR_APPEND then some OpenFlags.wcAppend
  else none

/-- Function `cmd_redirection` (src/cmd.c:117-171): full redirection for one leaf.
Performs the input pass (return value discarded, as in the source), then
either the single-open same-target pass when `out` and `err` resolve to the
identical string, or the two independent passes.  Only the invalid-mode
branch and a failing same-target open return `-1`; every other path returns
`EXIT_SUCCESS`. -/
def cmd_redirection (os : OS) (env : List (String × String)) (s : SimpleCmd) :
    Int × List Ev :=
  match ioFlagsValid s with
  | none => (-1, [])
  | some redirection_flags =>
    let evIn := (redirect_to_file os env s OpenFlags.rdonly "in" false).2
    match get_word env s.out, get_word env s.err with
    | some o, some e =>
      if o = e then
        let fd := os.openRes o redirection_flags
        let evs := evIn ++ [Ev.openE o redirection_flags fd]
        if fd < 0 then (-1, evs)
        else (0, evs ++ [Ev.dup2E fd 1, Ev.dup2E fd 2, Ev.closeE fd])
      else
        (0, evIn ++ (redirect_to_file os env s redirection_flags "out" false).2
              ++ (redirect_to_file os env s redirection_flags "err" false).2)
    | some _, none =>
      (0, evIn ++ (redirect_to_file os env s redirection_flags "out" false).2)
    | none, some _ =>
      (0, evIn ++ (redirect_to_file os env s redirection_flags "err" false).2)
    | none, none => (0, evIn)

/-- Function `shell_cd` (src/cmd.c:176-194): `false` on a null directory word or a
failing `chdir`, `true` otherwise. -/
def shell_cd (os : OS) (env : List (String × String)) :
    Option (List WordPart) → Bool
  | none => false
  | some dir => decide (0 ≤ os.chdirRes (getWordW env dir))

/-- Function `shell_exit` (src/cmd.c:199-203): produce the TERMINATE sentinel. -/
def shell_exit : Int := SHELL_EXIT

/-- The parent branch of the external-command path of `parse_simple`
(src/cmd.c:269-320): `-1` when `fork` fails or `waitpid` fails, the child's
`WEXITSTATUS` when it exited normally, `EXIT_SUCCESS` otherwise. -/
def externParent (os : OS) (s : SimpleCmd) : Int :=
  if os.forkSimple s = -1 then -1
  else if os.waitSimple s < 0 then -1
  else if os.exitedSimple s then (os.statusSimple s : Int)
  else 0

/-- The child branch of the external-command path of `parse_simple`
(src/cmd.c:276-296): perform redirection; on redirection failure return `-1`
without attempting `exec`; otherwise attempt `execvp` on the resolved verb. -/
def childRun (os : OS) (env : List (String × String)) (s : SimpleCmd) :
    Int × List Ev :=
  let rr := cmd_redirection os env s
  if rr.1 < 0 then (-1, rr.2)
  else (os.execRes s, rr.2 ++ [Ev.execA (getWordW env s.verb)])

/-- Result of evaluating a (sub)tree in the orchestrating process: the C
return value, the environment table afterwards, and the event trace. -/
structure Res where
  ret : Int
  env : List (String × String)
  tr : List Ev
deriving Repr, DecidableEq

/-- Function `parse_simple` (src/cmd.c:209-321): builtin dispatch (`cd`,
`exit`/`quit`, `NAME=VALUE` assignment when the resolved verb contains `=`
and the verb chain has at least three fragments), otherwise the external
path.  A null command yields `SHELL_EXIT`. -/
def parse_simple (os : OS) (env : List (String × String)) :
    Option SimpleCmd → Res
  | none => ⟨SHELL_EXIT, env, []⟩
  | some s =>
    let curr_cmd := getWordW env s.verb
    if curr_cmd = "cd" then
      let evR := (redirect_to_file os env s OpenFlags.wcTrunc "out" true).2
      let ret_cd := shell_cd os env s.params
      ⟨if ret_cd then 0 else -1, env, evR ++ [Ev.cdA ret_cd]⟩
    else if curr_cmd = "exit" ∨ curr_cmd = "quit" then
      ⟨shell_exit, env, [Ev.exitA]⟩
    else if curr_cmd.data.contains '=' ∧ 3 ≤ s.verb.length then
      let src := firstRaw s.verb
      let dst := getWordW env (s.verb.drop 2)
      let r := os.setenvRes src dst
      ⟨if r ≠ 0 then -1 else 0,
       if r = 0 then setEnvList env src dst else env,
       [Ev.assignA src dst]⟩
    else
      ⟨externParent os s, env, [Ev.extA curr_cmd]⟩

/-- Parent branch of `run_in_parallel` (src/cmd.c:326-392).  The function is
declared `bool` in the source, so `return -1` yields `true` and
`return WEXITSTATUS(status_pid2)` yields its zero/nonzero collapse.  The
trace records the waits, first-forked first-waited. -/
def run_in_parallel (os : OS) (cmd1 cmd2 : CommandT) : Bool × List Ev :=
  let pid1 := os.parFork1 cmd1 cmd2
  if pid1 = -1 then (false, [])
  else
    let pid2 := os.parFork2 cmd1 cmd2
    if pid2 = -1 then (false, [])
    else
      if os.parWait1 cmd1 cmd2 < 0 then (true, [Ev.waitA pid1])
      else if os.parWait2 cmd1 cmd2 < 0 then
        (true, [Ev.waitA pid1, Ev.waitA pid2])
      else if os.parExited2 cmd1 cmd2 then
        (os.parStatus2 cmd1 cmd2 != 0, [Ev.waitA pid1, Ev.waitA pid2])
      else (false, [Ev.waitA pid1, Ev.waitA pid2])

/-- Parent branch of `run_on_pipe` (src/cmd.c:397-496).  Also declared
`bool` in the source, with the same value collapse.  The parent closes both
pipe ends, then waits for both children in fork order. -/
def run_on_pipe (os : OS) (cmd1 cmd2 : CommandT) : Bool × List Ev :=
  if os.pipeRes cmd1 cmd2 < 0 then (false, [])
  else
    let pid1 := os.pipeFork1 cmd1 cmd2
    if pid1 = -1 then (false, [])
    else
      let pid2 := os.pipeFork2 cmd1 cmd2
      if pid2 = -1 then (false, [])
      else
        let evc := [Ev.closeE (os.pipeFdW cmd1 cmd2),
                    Ev.closeE (os.pipeFdR cmd1 cmd2)]
        if os.pipeWait1 cmd1 cmd2 < 0 then (true, evc ++ [Ev.waitA pid1])
        else if os.pipeWait2 cmd1 cmd2 < 0 then
          (true, evc ++ [Ev.waitA pid1, Ev.waitA pid2])
        else if os.pipeExited2 cmd1 cmd2 then
          (os.pipeStatus2 cmd1 cmd2 != 0,
           evc ++ [Ev.waitA pid1, Ev.waitA pid2])
        else (false, evc ++ [Ev.waitA pid1, Ev.waitA pid2])

/-- Function `parse_command` (src/cmd.c:501-556): the recursive tree evaluator.  A
null tree yields `SHELL_EXIT`; SEQUENTIAL propagates any negative left
result without evaluating the right child; the two conditionals test the
left result against zero; PARALLEL and PIPE delegate to the orchestration
functions, whose `bool` result is converted back to the `int` 0/1. -/
def parse_command (os : OS) (env : List (String × String)) :
    CommandT → Res
  | CommandT.nullC => ⟨SHELL_EXIT, env, []⟩
  | CommandT.node op scmd cmd1 cmd2 =>
    match op with
    | Op.opNone => parse_simple os env scmd
    | Op.opSequential =>
      let r1 := parse_command os env cmd1
      if r1.ret < 0 then r1
      else
        let r2 := parse_command os r1.env cmd2
        ⟨r2.ret, r2.env, r1.tr ++ r2.tr⟩
    | Op.opParallel =>
      let p := run_in_parallel os cmd1 cmd2
      ⟨if p.1 then 1 else 0, env, p.2⟩
    | Op.opCondNzero =>
      let r1 := parse_command os env cmd1
      if r1.ret ≠ 0 then
        let r2 := parse_command os r1.env cmd2
        ⟨r2.ret, r2.env, r1.tr ++ r2.tr⟩
      else r1
    | Op.opCondZero =>
      let r1 := parse_command os env cmd1
      if r1.ret = 0 then
        let r2 := parse_command os r1.env cmd2
        ⟨r2.ret, r2.env, r1.tr ++ r2.tr⟩
      else r1
    | Op.opPipe =>
      let p := run_on_pipe os cmd1 cmd2
      ⟨if p.1 then 1 else 0, env, p.2⟩
    | Op.opDummy => ⟨SHELL_EXIT, env, []⟩

/-! ## Concrete fixtures used by counterexamples and witnesses -/

/-- Oracle fixture: every `open` fails, every fork/wait succeeds, and the
second child of a PARALLEL or PIPE node exits normally with status 2. -/
def osD : OS where
  openRes := fun _ _ => -1
  chdirRes := fun _ => 0
  setenvRes := fun _ _ => 0
  forkSimple := fun _ => 5
  waitSimple := fun _ => 0
  exitedSimple := fun _ => true
  statusSimple := fun _ => 0
  execRes := fun _ => 0
  parFork1 := fun _ _ => 100
  parFork2 := fun _ _ => 101
  parWait1 := fun _ _ => 0
  parWait2 := fun _ _ => 0
  parExited2 := fun _ _ => true
  parStatus2 := fun _ _ => 2
  pipeRes := fun _ _ => 0
  pipeFdR := fun _ _ => 3
  pipeFdW := fun _ _ => 4
  pipeFork1 := fun _ _ => 200
  pipeFork2 := fun _ _ => 201
  pipeWait1 := fun _ _ => 0
  pipeWait2 := fun _ _ => 0
  pipeExited2 := fun _ _ => true
  pipeStatus2 := fun _ _ => 2

/-- Oracle fixture: like `osD`, but every `fork` call fails. -/
def osForkFail : OS :=
  { osD with
    forkSimple := fun _ => -1
    parFork1 := fun _ _ => -1
    pipeFork1 := fun _ _ => -1 }

/-- Oracle fixture: like `osD`, but every `open` succeeds with descriptor 5. -/
def osOk : OS := { osD with openRes := fun _ _ => 5 }

/-- An `exit` leaf command. -/
def exitCmd : SimpleCmd := ⟨[⟨"exit", false⟩], none, none, none, none, 0⟩

/-- An assignment leaf command `X=1` (three verb fragments). -/
def assignCmd : SimpleCmd :=
  ⟨[⟨"X", false⟩, ⟨"=", false⟩, ⟨"1", false⟩], none, none, none, none, 0⟩

/-- A `cd` leaf command with no directory parameter (so `shell_cd` fails). -/
def cdCmd : SimpleCmd := ⟨[⟨"cd", false⟩], none, none, none, none, 0⟩

/-- An external leaf command `prog`. -/
def extCmd : SimpleCmd := ⟨[⟨"prog", false⟩], none, none, none, none, 0⟩

/-- Tree leaf wrapping `exitCmd`. -/
def exitLeaf : CommandT :=
  CommandT.node Op.opNone (some exitCmd) CommandT.nullC CommandT.nullC

/-- Tree leaf wrapping `assignCmd`. -/
def assignLeaf : CommandT :=
  CommandT.node Op.opNone (some assignCmd) CommandT.nullC CommandT.nullC

/-- Tree leaf wrapping `cdCmd`. -/
def cdLeaf : CommandT :=
  CommandT.node Op.opNone (some cdCmd) CommandT.nullC CommandT.nullC

/-- Tree leaf wrapping `extCmd`. -/
def extLeaf : CommandT :=
  CommandT.node Op.opNone (some extCmd) CommandT.nullC CommandT.nullC

/-! ## Claims -/

/-- C1: evaluating `OP_CONDITIONAL_NZERO(A,B)` yields `result(B)` and
evaluates `B` (its trace is appended) exactly when `result(A)` is nonzero,
and yields `result(A)` without evaluating `B` when `result(A)` is zero;
`OP_CONDITIONAL_ZERO(A,B)` is the mirror image, running `B` exactly when
`result(A)` is zero. -/
theorem C1_conditional_short_circuit (os : OS) (env : List (String × String))
    (sc : Option SimpleCmd) (A B : CommandT) :
    ((parse_command os env (CommandT.node Op.opCondNzero sc A B)).ret
        = (if (parse_command os env A).ret ≠ 0
           then (parse_command os (parse_command os env A).env B).ret
           else (parse_command os env A).ret))
    ∧ ((parse_command os env (CommandT.node Op.opCondNzero sc A B)).tr
        = (parse_command os env A).tr ++
          (if (parse_command os env A).ret ≠ 0
           then (parse_command os (parse_command os env A).env B).tr
           else []))
    ∧ ((parse_command os env (CommandT.node Op.opCondZero sc A B)).ret
        = (if (parse_command os env A).ret = 0
           then (parse_command os (parse_command os env A).env B).ret
           else (parse_command os env A).ret))
    ∧ ((parse_command os env (CommandT.node Op.opCondZero sc A B)).tr
        = (parse_command os env A).tr ++
          (if (parse_command os env A).ret = 0
           then (parse_command os (parse_command os env A).env B).tr
           else [])) := by
  refine ⟨?_, ?_, ?_, ?_⟩ <;>
    · simp only [parse_command]
      split <;> simp_all

/-- C2 counterexample: `OP_CONDITIONAL_NZERO(exit, X=1)` does **not** stop at
the TERMINATE sentinel: the sentinel is a nonzero value, so the right sibling
is evaluated (its `assignA` event appears in the trace) and the node's result
is the sibling's result `0`, not the sentinel. -/
theorem C2_counterexample :
    parse_command osD [] (CommandT.node Op.opCondNzero none exitLeaf assignLeaf)
      = ⟨0, [("X", "1")], [Ev.exitA, Ev.assignA "X" "1"]⟩
    ∧ (0 : Int) ≠ SHELL_EXIT := by
  exact ⟨by decide, by decide⟩

/-- C2 amended: once the TERMINATE sentinel is produced, an enclosing
SEQUENTIAL or OP_CONDITIONAL_ZERO node stops evaluating its remaining
sibling and propagates the sentinel unchanged; an enclosing
OP_CONDITIONAL_NZERO node instead treats the sentinel as an ordinary nonzero
status, evaluates its right sibling, and returns that sibling's result. -/
theorem C2_amended_propagation (os : OS) (env : List (String × String))
    (sc : Option SimpleCmd) (A B : CommandT)
    (h : (parse_command os env A).ret = SHELL_EXIT) :
    parse_command os env (CommandT.node Op.opSequential sc A B)
        = parse_command os env A
    ∧ parse_command os env (CommandT.node Op.opCondZero sc A B)
        = parse_command os env A
    ∧ parse_command os env (CommandT.node Op.opCondNzero sc A B)
        = ⟨(parse_command os (parse_command os env A).env B).ret,
           (parse_command os (parse_command os env A).env B).env,
           (parse_command os env A).tr
             ++ (parse_command os (parse_command os env A).env B).tr⟩ := by
  refine ⟨?_, ?_, ?_⟩ <;>
    · simp only [parse_command, h, SHELL_EXIT]
      norm_num

/-- C2 witness: the amended propagation at a concrete input. -/
theorem C2_amended_witness :
    parse_command osD [] (CommandT.node Op.opSequential none exitLeaf assignLeaf)
      = parse_command osD [] exitLeaf :=
  (C2_amended_propagation osD [] none exitLeaf assignLeaf (by decide)).1

/-- C3 counterexample: `SEQUENTIAL(cd-with-no-argument, X=1)`.  The failed
`cd` builtin yields the ordinary failure status `-1`, which is neither the
TERMINATE sentinel nor a construction failure (the left child is a non-null
node), yet the right sibling is **not** evaluated (no `assignA` event) and
the node's result is `-1`, not `result(B)`. -/
theorem C3_counterexample :
    parse_command osD [] (CommandT.node Op.opSequential none cdLeaf assignLeaf)
      = ⟨-1, [], [Ev.cdA false]⟩
    ∧ (-1 : Int) ≠ SHELL_EXIT
    ∧ cdLeaf ≠ CommandT.nullC
    ∧ (parse_command osD [] cdLeaf).ret = -1 := by
  exact ⟨by decide, by decide, by decide, by decide⟩

/-- C3 amended: for `SEQUENTIAL(A,B)`, the right sibling is evaluated, and
the node's result is `result(B)`, exactly when `result(A)` is non-negative;
any negative left result — the TERMINATE sentinel or the `-1` failure status
of a failed builtin, fork or wait — suppresses `B` and is propagated.  An
external command's ordinary nonzero exit status (always in [0,255]) never
suppresses `B`, but a failed `cd` builtin (result `-1`) does. -/
theorem C3_amended_sequential (os : OS) (env : List (String × String))
    (sc : Option SimpleCmd) (A B : CommandT) :
    (0 ≤ (parse_command os env A).ret →
        parse_command os env (CommandT.node Op.opSequential sc A B)
          = ⟨(parse_command os (parse_command os env A).env B).ret,
             (parse_command os (parse_command os env A).env B).env,
             (parse_command os env A).tr
               ++ (parse_command os (parse_command os env A).env B).tr⟩)
    ∧ ((parse_command os env A).ret < 0 →
        parse_command os env (CommandT.node Op.opSequential sc A B)
          = parse_command os env A) := by
  constructor <;> intro h <;> simp only [parse_command]
  · rw [if_neg (by omega)]
  · rw [if_pos h]

/-- C3 witness: the amended sequencing at a concrete input (a successful
assignment on the left does not suppress the right sibling). -/
theorem C3_amended_witness :
    0 ≤ (parse_command osD [] assignLeaf).ret
    ∧ parse_command osD [] (CommandT.node Op.opSequential none assignLeaf extLeaf)
      = ⟨(parse_command osD (parse_command osD [] assignLeaf).env extLeaf).ret,
         (parse_command osD (parse_command osD [] assignLeaf).env extLeaf).env,
         (parse_command osD [] assignLeaf).tr
           ++ (parse_command osD (parse_command osD [] assignLeaf).env extLeaf).tr⟩ :=
  ⟨by decide, (C3_amended_sequential osD [] none assignLeaf extLeaf).1 (by decide)⟩

/-- C4 (code bug): the orchestrator of PARALLEL and PIPE does wait for both
children in fork order (the `waitA` trace), but the operator's reported
result is **not** the second branch's full exit status: `run_in_parallel`
and `run_on_pipe` are declared `bool`, so `return WEXITSTATUS(status_pid2)`
collapses the status to zero/nonzero.  Here the second child exits with
status 2 and the operator reports 1. -/
theorem C4_result_collapsed_to_bool :
    run_in_parallel osD extLeaf extLeaf = (true, [Ev.waitA 100, Ev.waitA 101])
    ∧ (parse_command osD []
        (CommandT.node Op.opParallel none extLeaf extLeaf)).ret = 1
    ∧ osD.parStatus2 extLeaf extLeaf = 2
    ∧ run_on_pipe osD extLeaf extLeaf
        = (true, [Ev.closeE 4, Ev.closeE 3, Ev.waitA 200, Ev.waitA 201])
    ∧ (parse_command osD []
        (CommandT.node Op.opPipe none extLeaf extLeaf)).ret = 1
    ∧ osD.pipeStatus2 extLeaf extLeaf = 2
    ∧ (1 : Int) ≠ 2 := by
  exact ⟨by decide, by decide, by decide, by decide, by decide, by decide,
    by decide⟩

/-- C8 (code bug): a failing `fork` in the PARALLEL or PIPE path makes
`run_in_parallel` / `run_on_pipe` return `false`, which the `bool` return
type delivers to `parse_command` as `0` — the operator reports *success*,
not a propagated failure.  (The external-leaf path does conform: there a
failing fork yields `-1`.) -/
theorem C8_fork_failure_reported_as_success :
    (parse_command osForkFail []
        (CommandT.node Op.opParallel none extLeaf extLeaf)).ret = 0
    ∧ run_in_parallel osForkFail extLeaf extLeaf = (false, [])
    ∧ (parse_command osForkFail []
        (CommandT.node Op.opPipe none extLeaf extLeaf)).ret = 0
    ∧ (parse_simple osForkFail [] (some extCmd)).ret = -1 := by
  exact ⟨by decide, by decide, by decide, by decide⟩

/-- A leaf command whose only redirect target is an `in` file (every open
fails under `osD`). -/
def inFailCmd : SimpleCmd :=
  ⟨[⟨"prog", false⟩], none, some [⟨"f", false⟩], none, none, 0⟩

/-- A leaf command whose `out` and `err` targets resolve to the same path. -/
def sameFailCmd : SimpleCmd :=
  ⟨[⟨"prog", false⟩], none, none, some [⟨"g", false⟩], some [⟨"g", false⟩], 0⟩

/-- C5 counterexample: a leaf whose `in` target cannot be opened.  The
redirection step *ignores* the failed input pass (the source discards
`redirect_to_file`'s return value), reports success `0`, and the child
proceeds to `exec` — contradicting the claim that any failed redirect open
reports failure and prevents the exec. -/
theorem C5_counterexample :
    (cmd_redirection osD [] inFailCmd).1 = 0
    ∧ osD.openRes "f" OpenFlags.rdonly = -1
    ∧ (childRun osD [] inFailCmd).2
        = [Ev.openE "f" OpenFlags.rdonly (-1), Ev.execA "prog"] := by
  exact ⟨by decide, by decide, by decide⟩

/-- C5 amended: the redirection step reports failure exactly when the io
mode is invalid, or when `out` and `err` resolve to the identical path and
that single shared open fails; only then is the leaf not executed (the
child returns `-1` with no `exec` attempt).  All other open failures —
including an unopenable `in` target — are silently discarded: the step
reports success and the child proceeds to `exec` with that channel left
unredirected. -/
theorem C5_amended_redirection_failure (os : OS)
    (env : List (String × String)) (s : SimpleCmd) :
    ((cmd_redirection os env s).1 = -1 ↔
      (ioFlagsValid s = none ∨
        ∃ o fl, ioFlagsValid s = some fl ∧ get_word env s.out = some o
          ∧ get_word env s.err = some o ∧ os.openRes o fl < 0))
    ∧ ((cmd_redirection os env s).1 < 0 →
        childRun os env s = (-1, (cmd_redirection os env s).2))
    ∧ (0 ≤ (cmd_redirection os env s).1 →
        childRun os env s
          = (os.execRes s, (cmd_redirection os env s).2
              ++ [Ev.execA (getWordW env s.verb)])) := by
  rcases hfl : ioFlagsValid s with _ | fl
  · simp [cmd_redirection, hfl, childRun]
  · rcases ho : get_word env s.out with _ | o <;>
      rcases he : get_word env s.err with _ | e
    · simp [cmd_redirection, hfl, ho, he, childRun]
    · simp [cmd_redirection, hfl, ho, he, childRun]
    · simp [cmd_redirection, hfl, ho, he, childRun]
    · by_cases hoe : o = e
      · subst hoe
        by_cases hfd : os.openRes o fl < 0
        · simp [cmd_redirection, hfl, ho, he, childRun, hfd]
        · simp [cmd_redirection, hfl, ho, he, childRun, hfd]
      · simp [cmd_redirection, hfl, ho, he, childRun, hoe]
        intro h
        exact absurd h.symm hoe

/-- C5 witness: the amended characterization at a concrete input (shared
`out`/`err` target whose open fails: the child does not exec). -/
theorem C5_amended_witness :
    childRun osD [] sameFailCmd = (-1, (cmd_redirection osD [] sameFailCmd).2) :=
  (C5_amended_redirection_failure osD [] sameFailCmd).2.1 (by decide)

/-- An event that is a file open with write flags (anything other than the
read-only open used for the `in` pass). -/
def isWriteOpen : Ev → Bool
  | Ev.openE _ fl _ => fl != OpenFlags.rdonly
  | _ => false

/-- The flags computed by `cmd_redirection` for the output/error targets are
never the read-only flags. -/
lemma ioFlagsValid_ne_rdonly (s : SimpleCmd) (fl : OpenFlags)
    (h : ioFlagsValid s = some fl) : fl ≠ OpenFlags.rdonly := by
  unfold ioFlagsValid at h
  split at h
  · injection h with h2; subst h2; decide
  · split at h
    · injection h with h2; subst h2; decide
    · split at h
      · injection h with h2; subst h2; decide
      · exact absurd h (by simp)

/-- The input pass of `cmd_redirection` performs no write-mode open. -/
lemma inPass_no_write_open (os : OS) (env : List (String × String))
    (s : SimpleCmd) :
    ((redirect_to_file os env s OpenFlags.rdonly "in" false).2).filter
        isWriteOpen = [] := by
  rcases h : get_word env s.inFile with _ | n
  · simp [redirect_to_file, h]
  · by_cases hfd : os.openRes n OpenFlags.rdonly ≤ 0
    · simp [redirect_to_file, h, hfd, isWriteOpen]
    · simp [redirect_to_file, h, hfd, isWriteOpen]

/-- C6: when `out` and `err` resolve to the identical path and that open
succeeds, the redirection step performs exactly one write-mode open of the
path and duplicates the single resulting descriptor onto both stdout (1)
and stderr (2), returning success. -/
theorem C6_same_target_single_open (os : OS) (env : List (String × String))
    (s : SimpleCmd) (p : String) (fl : OpenFlags)
    (hm : ioFlagsValid s = some fl)
    (ho : get_word env s.out = some p)
    (he : get_word env s.err = some p)
    (hfd : 0 ≤ os.openRes p fl) :
    ((cmd_redirection os env s).2.filter isWriteOpen)
        = [Ev.openE p fl (os.openRes p fl)]
    ∧ Ev.dup2E (os.openRes p fl) 1 ∈ (cmd_redirection os env s).2
    ∧ Ev.dup2E (os.openRes p fl) 2 ∈ (cmd_redirection os env s).2
    ∧ (cmd_redirection os env s).1 = 0 := by
  have hin := inPass_no_write_open os env s
  have hne := ioFlagsValid_ne_rdonly s fl hm
  have hnlt : ¬ os.openRes p fl < 0 := by omega
  simp [cmd_redirection, hm, ho, he, hnlt, List.filter_append, hin,
    isWriteOpen, bne_iff_ne, hne]

/-- C7: for a `cd` leaf with both `out` and `err` targets that open
successfully, the `out` file is opened (and closed) but its descriptor is
never duplicated onto stdout, while the `err` target is opened afterwards
with the same truncate flags and duplicated onto stderr; no event ever
rebinds descriptor 1. -/
theorem C7_cd_redirect_asymmetry (os : OS) (env : List (String × String))
    (s : SimpleCmd) (po pe : String)
    (hverb : getWordW env s.verb = "cd")
    (ho : get_word env s.out = some po)
    (he : get_word env s.err = some pe)
    (h1 : 0 < os.openRes po OpenFlags.wcTrunc)
    (h2 : 0 < os.openRes pe OpenFlags.wcTrunc) :
    (parse_simple os env (some s)).tr
      = [Ev.openE po OpenFlags.wcTrunc (os.openRes po OpenFlags.wcTrunc),
         Ev.closeE (os.openRes po OpenFlags.wcTrunc),
         Ev.openE pe OpenFlags.wcTrunc (os.openRes pe OpenFlags.wcTrunc),
         Ev.dup2E (os.openRes pe OpenFlags.wcTrunc) 2,
         Ev.closeE (os.openRes pe OpenFlags.wcTrunc),
         Ev.cdA (shell_cd os env s.params)]
    ∧ ∀ f, Ev.dup2E f 1 ∉ (parse_simple os env (some s)).tr := by
  have hA : ¬ os.openRes po OpenFlags.wcTrunc ≤ 0 := by omega
  have hB : ¬ os.openRes pe OpenFlags.wcTrunc ≤ 0 := by omega
  have htr : (parse_simple os env (some s)).tr
      = [Ev.openE po OpenFlags.wcTrunc (os.openRes po OpenFlags.wcTrunc),
         Ev.closeE (os.openRes po OpenFlags.wcTrunc),
         Ev.openE pe OpenFlags.wcTrunc (os.openRes pe OpenFlags.wcTrunc),
         Ev.dup2E (os.openRes pe OpenFlags.wcTrunc) 2,
         Ev.closeE (os.openRes pe OpenFlags.wcTrunc),
         Ev.cdA (shell_cd os env s.params)] := by
    simp [parse_simple, hverb, redirect_to_file, ho, he, hA, hB]
  refine ⟨htr, ?_⟩
  intro f
  rw [htr]
  simp

/-- A `cd` leaf with distinct `out` and `err` targets. -/
def cdBothCmd : SimpleCmd :=
  ⟨[⟨"cd", false⟩], none, none, some [⟨"o", false⟩], some [⟨"e", false⟩], 0⟩

/-- C6 witness: the single-open behavior at a concrete input. -/
theorem C6_witness :
    ((cmd_redirection osOk [] sameFailCmd).2.filter isWriteOpen)
        = [Ev.openE "g" OpenFlags.wcTrunc 5]
    ∧ Ev.dup2E 5 1 ∈ (cmd_redirection osOk [] sameFailCmd).2
    ∧ Ev.dup2E 5 2 ∈ (cmd_redirection osOk [] sameFailCmd).2
    ∧ (cmd_redirection osOk [] sameFailCmd).1 = 0 :=
  C6_same_target_single_open osOk [] sameFailCmd "g" OpenFlags.wcTrunc
    (by decide) (by decide) (by decide) (by decide)

/-- C7 witness: the cd redirection trace at a concrete input. -/
theorem C7_witness :
    (parse_simple osOk [] (some cdBothCmd)).tr
      = [Ev.openE "o" OpenFlags.wcTrunc 5, Ev.closeE 5,
         Ev.openE "e" OpenFlags.wcTrunc 5, Ev.dup2E 5 2, Ev.closeE 5,
         Ev.cdA (shell_cd osOk [] cdBothCmd.params)] :=
  (C7_cd_redirect_asymmetry osOk [] cdBothCmd "o" "e"
    (by decide) (by decide) (by decide) (by decide) (by decide)).1

/-- Under a well-formed descriptor oracle (`open` returns `-1` on failure or
a descriptor above the three standard channels, which are occupied for the
whole redirection step), every descriptor successfully opened by a non-cd
`redirect_to_file` pass is closed within that pass and duplicated onto a
standard channel. -/
lemma redirect_to_file_closes (os : OS) (env : List (String × String))
    (s : SimpleCmd) (rf : OpenFlags) (ty : String)
    (hos : ∀ q g, os.openRes q g = -1 ∨ 2 < os.openRes q g) :
    ∀ p fl f, Ev.openE p fl f ∈ (redirect_to_file os env s rf ty false).2 →
      0 ≤ f →
      Ev.closeE f ∈ (redirect_to_file os env s rf ty false).2
      ∧ ∃ ch, Ev.dup2E f ch ∈ (redirect_to_file os env s rf ty false).2 := by
  intro p fl f hmem hf
  by_cases hty : ty = "in" ∨ ty = "out" ∨ ty = "err"
  · rcases hty with rfl | rfl | rfl
    · rcases h : get_word env s.inFile with _ | n
      · simp [redirect_to_file, h] at hmem
      · rcases hos n OpenFlags.rdonly with hneg | hbig
        · simp [redirect_to_file, h, hneg] at hmem
          obtain ⟨_, _, hff⟩ := hmem
          omega
        · have hfd : ¬ os.openRes n OpenFlags.rdonly ≤ 0 := by omega
          have htr : (redirect_to_file os env s rf "in" false).2
              = [Ev.openE n OpenFlags.rdonly (os.openRes n OpenFlags.rdonly),
                 Ev.dup2E (os.openRes n OpenFlags.rdonly) 0,
                 Ev.closeE (os.openRes n OpenFlags.rdonly)] := by
            simp [redirect_to_file, h, hfd]
          rw [htr] at hmem ⊢
          simp only [List.mem_cons, List.not_mem_nil, or_false] at hmem
          rcases hmem with hmem | hmem | hmem
          · obtain ⟨_, _, hff⟩ := Ev.openE.inj hmem
            subst hff
            exact ⟨by simp, 0, by simp⟩
          · exact absurd hmem (by simp)
          · exact absurd hmem (by simp)
    · rcases h : get_word env s.out with _ | n
      · simp [redirect_to_file, h] at hmem
      · rcases hos n rf with hneg | hbig
        · simp [redirect_to_file, h, hneg] at hmem
          obtain ⟨_, _, hff⟩ := hmem
          omega
        · have hfd : ¬ os.openRes n rf ≤ 0 := by omega
          have htr : (redirect_to_file os env s rf "out" false).2
              = [Ev.openE n rf (os.openRes n rf),
                 Ev.dup2E (os.openRes n rf) 1,
                 Ev.closeE (os.openRes n rf)] := by
            simp [redirect_to_file, h, hfd]
          rw [htr] at hmem ⊢
          simp only [List.mem_cons, List.not_mem_nil, or_false] at hmem
          rcases hmem with hmem | hmem | hmem
          · obtain ⟨_, _, hff⟩ := Ev.openE.inj hmem
            subst hff
            exact ⟨by simp, 1, by simp⟩
          · exact absurd hmem (by simp)
          · exact absurd hmem (by simp)
    · rcases h : get_word env s.err with _ | n
      · simp [redirect_to_file, h] at hmem
      · rcases hos n rf with hneg | hbig
        · simp [redirect_to_file, h, hneg] at hmem
          obtain ⟨_, _, hff⟩ := hmem
          omega
        · have hfd : ¬ os.openRes n rf ≤ 0 := by omega
          have htr : (redirect_to_file os env s rf "err" false).2
              = [Ev.openE n rf (os.openRes n rf),
                 Ev.dup2E (os.openRes n rf) 2,
                 Ev.closeE (os.openRes n rf)] := by
            simp [redirect_to_file, h, hfd]
          rw [htr] at hmem ⊢
          simp only [List.mem_cons, List.not_mem_nil, or_false] at hmem
          rcases hmem with hmem | hmem | hmem
          · obtain ⟨_, _, hff⟩ := Ev.openE.inj hmem
            subst hff
            exact ⟨by simp, 2, by simp⟩
          · exact absurd hmem (by simp)
          · exact absurd hmem (by simp)
  · simp [redirect_to_file, hty] at hmem

/-- C9: under a well-formed descriptor oracle, every file descriptor the
redirection step successfully opens appears with a matching `close` event in
the step's trace (it is closed before the step returns, on success and
failure paths alike), and is duplicated onto one of the standard channels. -/
theorem C9_descriptors_closed (os : OS) (env : List (String × String))
    (s : SimpleCmd)
    (hos : ∀ q g, os.openRes q g = -1 ∨ 2 < os.openRes q g) :
    ∀ p fl f, Ev.openE p fl f ∈ (cmd_redirection os env s).2 → 0 ≤ f →
      Ev.closeE f ∈ (cmd_redirection os env s).2
      ∧ ∃ ch, Ev.dup2E f ch ∈ (cmd_redirection os env s).2 := by
  intro p fl f hmem hf
  rcases hm : ioFlagsValid s with _ | g
  · simp [cmd_redirection, hm] at hmem
  · rcases ho : get_word env s.out with _ | o <;>
      rcases he : get_word env s.err with _ | e
    · simp only [cmd_redirection, hm, ho, he] at hmem ⊢
      exact redirect_to_file_closes os env s OpenFlags.rdonly "in" hos p fl f
        hmem hf
    · simp only [cmd_redirection, hm, ho, he] at hmem ⊢
      rcases List.mem_append.mp hmem with h1 | h1
      · obtain ⟨hc, ch, hd⟩ := redirect_to_file_closes os env s
          OpenFlags.rdonly "in" hos p fl f h1 hf
        exact ⟨List.mem_append_left _ hc, ch, List.mem_append_left _ hd⟩
      · obtain ⟨hc, ch, hd⟩ := redirect_to_file_closes os env s g "err" hos
          p fl f h1 hf
        exact ⟨List.mem_append_right _ hc, ch, List.mem_append_right _ hd⟩
    · simp only [cmd_redirection, hm, ho, he] at hmem ⊢
      rcases List.mem_append.mp hmem with h1 | h1
      · obtain ⟨hc, ch, hd⟩ := redirect_to_file_closes os env s
          OpenFlags.rdonly "in" hos p fl f h1 hf
        exact ⟨List.mem_append_left _ hc, ch, List.mem_append_left _ hd⟩
      · obtain ⟨hc, ch, hd⟩ := redirect_to_file_closes os env s g "out" hos
          p fl f h1 hf
        exact ⟨List.mem_append_right _ hc, ch, List.mem_append_right _ hd⟩
    · by_cases hoe : o = e
      · subst hoe
        rcases hos o g with hneg | hbig
        · have htr : (cmd_redirection os env s).2
              = (redirect_to_file os env s OpenFlags.rdonly "in" false).2
                ++ [Ev.openE o g (os.openRes o g)] := by
            simp [cmd_redirection, hm, ho, he, hneg]
          rw [htr] at hmem
          rcases List.mem_append.mp hmem with h1 | h1
          · obtain ⟨hc, ch, hd⟩ := redirect_to_file_closes os env s
              OpenFlags.rdonly "in" hos p fl f h1 hf
            rw [htr]
            exact ⟨List.mem_append_left _ hc, ch, List.mem_append_left _ hd⟩
          · simp [hneg] at h1
            obtain ⟨_, _, hff⟩ := h1
            omega
        · have hlt : ¬ os.openRes o g < 0 := by omega
          have htr : (cmd_redirection os env s).2
              = ((redirect_to_file os env s OpenFlags.rdonly "in" false).2
                ++ [Ev.openE o g (os.openRes o g)])
                ++ [Ev.dup2E (os.openRes o g) 1, Ev.dup2E (os.openRes o g) 2,
                    Ev.closeE (os.openRes o g)] := by
            simp [cmd_redirection, hm, ho, he, hlt]
          rw [htr] at hmem ⊢
          rcases List.mem_append.mp hmem with h1 | h1
          · rcases List.mem_append.mp h1 with h2 | h2
            · obtain ⟨hc, ch, hd⟩ := redirect_to_file_closes os env s
                OpenFlags.rdonly "in" hos p fl f h2 hf
              exact ⟨List.mem_append_left _ (List.mem_append_left _ hc),
                     ch, List.mem_append_left _ (List.mem_append_left _ hd)⟩
            · simp only [List.mem_singleton] at h2
              obtain ⟨_, _, hff⟩ := Ev.openE.inj h2
              subst hff
              exact ⟨List.mem_append_right _ (by simp),
                     1, List.mem_append_right _ (by simp)⟩
          · exact absurd h1 (by simp)
      · simp only [cmd_redirection, hm, ho, he, if_neg hoe] at hmem ⊢
        rcases List.mem_append.mp hmem with h1 | h1
        · rcases List.mem_append.mp h1 with h2 | h2
          · obtain ⟨hc, ch, hd⟩ := redirect_to_file_closes os env s
              OpenFlags.rdonly "in" hos p fl f h2 hf
            exact ⟨List.mem_append_left _ (List.mem_append_left _ hc),
                   ch, List.mem_append_left _ (List.mem_append_left _ hd)⟩
          · obtain ⟨hc, ch, hd⟩ := redirect_to_file_closes os env s g "out"
              hos p fl f h2 hf
            exact ⟨List.mem_append_left _ (List.mem_append_right _ hc),
                   ch, List.mem_append_left _ (List.mem_append_right _ hd)⟩
        · obtain ⟨hc, ch, hd⟩ := redirect_to_file_closes os env s g "err"
            hos p fl f h1 hf
          exact ⟨List.mem_append_right _ hc, ch, List.mem_append_right _ hd⟩

/-- C9 witness: the closure property at a concrete input. -/
theorem C9_witness :
    Ev.closeE 5 ∈ (cmd_redirection osOk [] sameFailCmd).2
    ∧ ∃ ch, Ev.dup2E 5 ch ∈ (cmd_redirection osOk [] sameFailCmd).2 :=
  C9_descriptors_closed osOk [] sameFailCmd
    (fun _ _ => Or.inr (show (2 : Int) < 5 by decide)) "g" OpenFlags.wcTrunc 5
    (by decide) (by decide)

/-- C10: for a leaf whose resolved verb contains `=` (and is therefore not
`cd`, `exit` or `quit`): when the verb expression chain has fewer than three
fragments the leaf is *not* treated as an assignment and falls through to
external execution of the resolved verb; when the chain has at least three
fragments, the name passed to `setenv` is the verb's raw first fragment, the
value is the resolution of the chain starting at the third fragment, and the
result is `0` on `setenv` success and `-1` otherwise. -/
theorem C10_assignment_dispatch (os : OS) (env : List (String × String))
    (s : SimpleCmd)
    (h : (getWordW env s.verb).data.contains '=' = true) :
    (s.verb.length < 3 →
        parse_simple os env (some s)
          = ⟨externParent os s, env, [Ev.extA (getWordW env s.verb)]⟩)
    ∧ (3 ≤ s.verb.length →
        parse_simple os env (some s)
          = ⟨if os.setenvRes (firstRaw s.verb)
                  (getWordW env (s.verb.drop 2)) ≠ 0 then -1 else 0,
             if os.setenvRes (firstRaw s.verb)
                  (getWordW env (s.verb.drop 2)) = 0
               then setEnvList env (firstRaw s.verb)
                      (getWordW env (s.verb.drop 2))
               else env,
             [Ev.assignA (firstRaw s.verb)
                (getWordW env (s.verb.drop 2))]⟩) := by
  have hcd : ¬ getWordW env s.verb = "cd" := by
    intro hh
    rw [hh] at h
    exact absurd h (by decide)
  have hex : ¬ (getWordW env s.verb = "exit" ∨ getWordW env s.verb = "quit") := by
    rintro (hh | hh) <;> rw [hh] at h <;> exact absurd h (by decide)
  constructor <;> intro hlen
  · have hno : ¬ ((getWordW env s.verb).data.contains '=' = true
        ∧ 3 ≤ s.verb.length) := by
      rintro ⟨_, hge⟩
      omega
    simp only [parse_simple, if_neg hcd, if_neg hex, if_neg hno]
  · have hyes : (getWordW env s.verb).data.contains '=' = true
        ∧ 3 ≤ s.verb.length := ⟨h, hlen⟩
    simp only [parse_simple, if_neg hcd, if_neg hex, if_pos hyes]

/-- A leaf whose resolved verb `a=b` contains `=` but whose chain has a
single fragment. -/
def shortAssignCmd : SimpleCmd :=
  ⟨[⟨"a=b", false⟩], none, none, none, none, 0⟩

/-- C10 witness: the fall-through to external execution at a concrete
single-fragment verb containing `=`. -/
theorem C10_witness :
    shortAssignCmd.verb.length < 3
    ∧ parse_simple osD [] (some shortAssignCmd)
        = ⟨externParent osD shortAssignCmd, [],
           [Ev.extA (getWordW [] shortAssignCmd.verb)]⟩ :=
  ⟨by decide,
   (C10_assignment_dispatch osD [] shortAssignCmd (by decide)).1 (by decide)⟩

end Minishell
